import Mathlib

/-!
Verification development for the follow-up resolution and confidence-scoring
subsystem of the finance-assistant backend.

The embedding mirrors two source modules:

* `conversation_router.py` — deterministic follow-up routing
  (`_normalize_text`, `_tokens`, `is_ack_or_continue`, `_ordinal_pick`,
  `_score_action_match`, `_load_actions_from_memory`, `resolve_followup`);
* `validator.py` — data confidence scoring (`calculate_confidence`,
  `get_confidence_badge`, `validate_stock_data`, `_get_recommendation`).

Conventions of the embedding:

* Python `datetime` instants are integers counting seconds; `datetime.now()`
  is modelled by an explicit `now : Int` parameter, and `timedelta`
  comparisons become integer comparisons of second counts.
* Heterogeneous Python values stored in the conversation-memory dict are
  modelled by the inductive `MemVal`; code paths on which Python would raise
  (iterating a non-iterable, comparing a string with an int) are modelled
  with `Except String`, the error carrying the exception name.
* Python sets of tokens are modelled as deduplicated lists; set intersection
  cardinality is `interCount`.
-/

/-! ## A model of the Python values appearing in conversation memory -/

/-- Model of the Python values that can appear inside the `last_context`
dict: `None`, booleans, ints, strings, lists and string-keyed dicts. -/
inductive MemVal where
  | none : MemVal
  | bool (b : Bool) : MemVal
  | int (n : Int) : MemVal
  | str (s : String) : MemVal
  | list (xs : List MemVal) : MemVal
  | dict (kvs : List (String × MemVal)) : MemVal

/-- Python truthiness of a `MemVal` (`bool(v)`). -/
def truthy (v : MemVal) : Bool :=
  match v with
  | MemVal.none => false
  | MemVal.bool b => b
  | MemVal.int n => n ≠ 0
  | MemVal.str s => s ≠ ""
  | MemVal.list xs => ¬ xs.isEmpty
  | MemVal.dict kvs => ¬ kvs.isEmpty

/-- `d.get(key)` on a Python dict (default `None`). -/
def pyGet (kvs : List (String × MemVal)) (key : String) : MemVal :=
  match kvs.find? (fun kv => kv.1 = key) with
  | some kv => kv.2
  | Option.none => MemVal.none

/-- Python `a or b`: `a` if truthy, else `b`. -/
def pyOr (a b : MemVal) : MemVal :=
  if truthy a then a else b

mutual

/-- Python `repr` of a `MemVal`.  String escaping inside `repr` of a string
is simplified (quotes are not escaped); no claim depends on the rendering of
non-string values, which the source only ever feeds through `str(...)`. -/
def pyRepr : MemVal → String
  | MemVal.none => "None"
  | MemVal.bool true => "True"
  | MemVal.bool false => "False"
  | MemVal.int n => toString n
  | MemVal.str s => "'" ++ s ++ "'"
  | MemVal.list xs => "[" ++ pyReprJoin xs ++ "]"
  | MemVal.dict kvs => "\x7b" ++ pyReprJoinKV kvs ++ "\x7d"

/-- Comma-joined `repr`s of list elements. -/
def pyReprJoin : List MemVal → String
  | [] => ""
  | [x] => pyRepr x
  | x :: xs => pyRepr x ++ ", " ++ pyReprJoin xs

/-- Comma-joined `repr`s of dict entries. -/
def pyReprJoinKV : List (String × MemVal) → String
  | [] => ""
  | [kv] => "'" ++ kv.1 ++ "': " ++ pyRepr kv.2
  | kv :: rest => "'" ++ kv.1 ++ "': " ++ pyRepr kv.2 ++ ", " ++ pyReprJoinKV rest

end

/-- Python `str(v)`: identity on strings, `repr` otherwise. -/
def pyStr (v : MemVal) : String :=
  match v with
  | MemVal.str s => s
  | v => pyRepr v

/-- The whitespace characters recognised by Python's `str.strip` / `\s`
(restricted to ASCII, which is all the source handles). -/
def pyIsSpace (c : Char) : Bool :=
  c = ' ' || c = '\t' || c = '\n' || c = '\r' || c = '\x0b' || c = '\x0c'

/-- Python `s.strip()`: drop whitespace from both ends. -/
def pyStrip (s : String) : String :=
  String.mk ((((s.toList.dropWhile pyIsSpace).reverse).dropWhile pyIsSpace).reverse)

/-- Iterating a Python value with `for`: lists yield their elements, strings
their one-character substrings, dicts their keys; `None`, bools and ints are
not iterable and raise `TypeError`. -/
def pyIter (v : MemVal) : Except String (List MemVal) :=
  match v with
  | MemVal.list xs => Except.ok xs
  | MemVal.str s => Except.ok (s.toList.map (fun c => MemVal.str (String.mk [c])))
  | MemVal.dict kvs => Except.ok (kvs.map (fun kv => MemVal.str kv.1))
  | _ => Except.error "TypeError: object is not iterable"

/-- Python `==` between a `str` and an arbitrary value: true only for an
equal string (cross-type equality is `False`, never an error). -/
def pyEqStr (s : String) (v : MemVal) : Bool :=
  match v with
  | MemVal.str t => s = t
  | _ => false

/-! ## Text normalization (`_normalize_text`, `_tokens`) -/

/-- The ASCII apostrophe. -/
def apostropheChar : Char := Char.ofNat 39

/-- The right single quotation mark U+2019, unified to an apostrophe by
`_normalize_text`. -/
def rightQuoteChar : Char := Char.ofNat 8217

/-- Characters kept by the normalization regex `[^a-z0-9'\s]` → space:
lowercase letters, digits and the apostrophe. -/
def isTokChar (c : Char) : Bool :=
  ('a' ≤ c && c ≤ 'z') || ('0' ≤ c && c ≤ '9') || c = apostropheChar

/-- Per-character action of `_normalize_text`: lower-case, unify the curly
apostrophe, and replace every character outside `[a-z0-9'\s]` by a space.
(`Char.toLower` lower-cases ASCII exactly as Python does; the few non-ASCII
characters Python would lower-case into ASCII are out of scope.) -/
def _mapChar (c : Char) : Char :=
  let c := c.toLower
  let c := if c = rightQuoteChar then apostropheChar else c
  if isTokChar c || pyIsSpace c then c else ' '

/-- The maximal runs of kept characters of the mapped text.  These are
exactly the matches of `_WORD_RE = [a-z0-9']+` on the normalized text. -/
def _token_chunks (s : String) : List (List Char) :=
  ((s.toList.map _mapChar).splitOnP (fun c => ¬ isTokChar c)).filter
    (fun l => ¬ l.isEmpty)

/-- `_tokens` from the source: the word-regex matches over the normalized
text. -/
def _tokens (s : String) : List String :=
  (_token_chunks s).map (fun l => String.mk l)

/-- `_normalize_text` from the source.  After the per-character mapping, the
squeeze-spaces and strip steps leave exactly the kept-character runs joined
by single spaces. -/
def _normalize_text (s : String) : String :=
  String.intercalate " " (_tokens s)

/-! ## Continuation / ack detection -/

/-- `_ACK_PREFIXES` from the source: normalized text starting with any of
these counts as an acceptance. -/
def _ACK_PHRASES : List String :=
  ["yes", "yeah", "yep", "yup", "sure", "ok", "okay", "k", "kk",
   "sounds good", "do that", "do it", "lets do that", "let's do that",
   "lets do it", "let's do it", "go ahead", "continue", "keep going",
   "dive in", "dive deeper", "lets dive", "let's dive", "run it",
   "sounds right", "that works", "fine", "alright", "all right"]

/-- `_ACK_SINGLETONS` from the source. -/
def _ACK_SINGLETONS : List String :=
  ["yes", "yeah", "yep", "yup", "sure", "ok", "okay", "alright", "go", "do",
   "doit", "continue"]

/-- `str.startswith` modelled on character lists. -/
def strStartsWith (s p : String) : Bool :=
  p.toList.isPrefixOf s.toList

/-- `is_ack_or_continue` from the source. -/
def is_ack_or_continue (user_text : String) : Bool :=
  let t := _normalize_text user_text
  if t = "" then false
  else if _ACK_SINGLETONS.contains t then true
  else if _ACK_PHRASES.any (fun p => strStartsWith t p) then true
  else
    let toks := _tokens t
    if toks.length ≤ 4 &&
        toks.any (fun x =>
          (["yes", "yeah", "yep", "sure", "ok", "okay", "alright"]).contains x)
    then true else false

/-! ## Option picking helpers (`_ordinal_pick`, `_score_action_match`) -/

/-- Lookup in `_ORDINAL_MAP` from the source. -/
def _ordinal_value (w : String) : Option Nat :=
  if w = "first" || w = "1st" || w = "one" then some 0
  else if w = "second" || w = "2nd" || w = "two" then some 1
  else if w = "third" || w = "3rd" || w = "three" then some 2
  else if w = "fourth" || w = "4th" || w = "four" then some 3
  else Option.none

/-- Regex word characters `[A-Za-z0-9_]` (for `\b`). -/
def isWordChar (c : Char) : Bool :=
  ('a' ≤ c && c ≤ 'z') || ('A' ≤ c && c ≤ 'Z') || ('0' ≤ c && c ≤ '9') || c = '_'

/-- Regex digit `\d` (ASCII). -/
def isDigitChar (c : Char) : Bool :=
  '0' ≤ c && c ≤ '9'

/-- Strip a literal from the front of a character list, returning the rest. -/
def stripLit : List Char → List Char → Option (List Char)
  | [], cs => some cs
  | _ :: _, [] => Option.none
  | l :: ls, c :: cs => if c = l then stripLit ls cs else Option.none

/-- Try to match `(option|choice)\s*(\d)\b` at the current position,
returning the digit.  Greedy `\s*` followed by a mandatory digit is
equivalent to dropping all spaces and then requiring a digit. -/
def _match_option_choice_here (cs : List Char) : Option Nat :=
  let rest? :=
    match stripLit ("option".toList) cs with
    | some r => some r
    | Option.none => stripLit ("choice".toList) cs
  match rest? with
  | Option.none => Option.none
  | some r =>
    match r.dropWhile pyIsSpace with
    | [] => Option.none
    | d :: r2 =>
      if isDigitChar d &&
          (match r2 with | [] => true | c :: _ => ¬ isWordChar c) then
        some (d.toNat - 48)
      else Option.none

/-- Leftmost search for `\b(option|choice)\s*(\d)\b`: scan positions left to
right; a position qualifies when the previous character (if any) is not a
word character (the `\b` before the literal; the one after the digit is
checked by the matcher). -/
def _search_option_choice (atBoundary : Bool) (cs : List Char) : Option Nat :=
  match (if atBoundary then _match_option_choice_here cs else Option.none), cs with
  | some d, _ => some d
  | Option.none, [] => Option.none
  | Option.none, c :: rest => _search_option_choice (¬ isWordChar c) rest

/-- `_ordinal_pick` from the source: first token in the ordinal vocabulary,
otherwise the `option N` / `choice N` pattern (index `N-1`, returned only
when non-negative). -/
def _ordinal_pick (user_text : String) : Option Nat :=
  match (_tokens user_text).findSome? _ordinal_value with
  | some idx => some idx
  | Option.none =>
    match _search_option_choice true ((_normalize_text user_text).toList) with
    | some d => if 1 ≤ d then some (d - 1) else Option.none
    | Option.none => Option.none

/-! ## Public data shapes of the router -/

/-- `FollowupAction` from the source: a structured next step the system
suggested previously. -/
structure FollowupAction where
  id : String
  label : String
  query : String
  keywords : List String
deriving DecidableEq

/-- `FollowupResolution` from the source: result of resolving a user message
against stored followups. -/
structure FollowupResolution where
  kind : String
  action : Option FollowupAction := Option.none
  clarify_prompt : Option String := Option.none
  confidence : Nat := 0
  reason : String := ""
deriving DecidableEq

/-- Number of distinct common tokens: `len(set(xs) & set(ys))` when `xs` is
already deduplicated. -/
def interCount (xs ys : List String) : Nat :=
  (xs.filter (fun t => ys.contains t)).length

/-- Sub-tokens of an action id: `re.findall(r"[a-z0-9]+", id.lower())`. -/
def _id_tokens (s : String) : List String :=
  ((((s.toList.map Char.toLower)).splitOnP
      (fun c => ¬ (('a' ≤ c && c ≤ 'z') || ('0' ≤ c && c ≤ '9')))).filter
    (fun l => ¬ l.isEmpty)).map (fun l => String.mk l)

/-- `_score_action_match` from the source: deterministic keyword scoring
against the action id tokens (+4 each), keyword phrases (+10 for a full
subset hit, else +3 per overlapping token) and label tokens (+2 each). -/
def _score_action_match (user_text : String) (action : FollowupAction) : Nat :=
  let utoks := (_tokens user_text).dedup
  if utoks.isEmpty then 0
  else
    let id_toks := (_id_tokens action.id).dedup
    let score := 4 * interCount utoks id_toks
    let score := score + (action.keywords.map (fun kw =>
      let kw_toks := (_tokens kw).dedup
      if ¬ kw_toks.isEmpty && kw_toks.all (fun t => utoks.contains t) then 10
      else 3 * interCount utoks kw_toks)).sum
    let score := score + 2 * interCount utoks ((_tokens action.label).dedup)
    score

/-! ## Loading actions from conversation memory -/

/-- `str(d.get(key) or "").strip()` — the field coercion used by
`_load_actions_from_memory`. -/
def pyFieldStr (kvs : List (String × MemVal)) (key : String) : String :=
  pyStrip (pyStr (pyOr (pyGet kvs key) (MemVal.str "")))

/-- One iteration of the entry loop of `_load_actions_from_memory`:
`none` models Python's `continue` (entry silently dropped), an error models
a `TypeError` raised while iterating a non-iterable `keywords` value. -/
def loadEntry (a : MemVal) : Except String (Option FollowupAction) :=
  match a with
  | MemVal.dict kvs =>
    let aid := pyFieldStr kvs "id"
    let label := pyFieldStr kvs "label"
    let query := pyFieldStr kvs "query"
    if aid = "" || query = "" then Except.ok Option.none
    else
      let kws := pyOr (pyGet kvs "keywords") (MemVal.list [])
      let kws := match kws with
        | MemVal.str s => MemVal.list [MemVal.str s]
        | v => v
      match pyIter kws with
      | Except.error e => Except.error e
      | Except.ok elems =>
        let keywords := (elems.map (fun x => pyStrip (pyStr x))).filter
          (fun s => s ≠ "")
        Except.ok (some ⟨aid, label, query, keywords⟩)
  | _ => Except.ok Option.none

/-- The entry loop of `_load_actions_from_memory` over `next_actions`. -/
def loadEntries : List MemVal → Except String (List FollowupAction)
  | [] => Except.ok []
  | a :: rest =>
    match loadEntry a with
    | Except.error e => Except.error e
    | Except.ok Option.none => loadEntries rest
    | Except.ok (some act) =>
      match loadEntries rest with
      | Except.error e => Except.error e
      | Except.ok acts => Except.ok (act :: acts)

/-- `_load_actions_from_memory` from the source.  Returns the valid actions
plus the (possibly auto-filled) `default_action_id` value. -/
def _load_actions_from_memory (last_context : List (String × MemVal)) :
    Except String (List FollowupAction × MemVal) :=
  let actions_raw_val := pyOr (pyGet last_context "next_actions") (MemVal.list [])
  let default_id := pyGet last_context "default_action_id"
  match pyIter actions_raw_val with
  | Except.error e => Except.error e
  | Except.ok actions_raw =>
    match loadEntries actions_raw with
    | Except.error e => Except.error e
    | Except.ok actions =>
      -- If default_id missing but there are actions, choose first as default.
      let default_id :=
        if truthy default_id then default_id
        else match actions with
          | [] => default_id
          | a :: _ => MemVal.str a.id
      Except.ok (actions, default_id)

/-! ## Main resolver -/

/-- Steps 2–4 of `resolve_followup` (keyword scoring, acknowledgment
fallback, clarify), reached when the action list is non-empty and no
in-bounds ordinal matched.  `a0 :: rest` is the non-empty action list. -/
def _keyword_step (user_text : String) (a0 : FollowupAction)
    (rest : List FollowupAction) (default_id : MemVal) : FollowupResolution :=
  let actions := a0 :: rest
  let scored := actions.map (fun a => (a, _score_action_match user_text a))
  -- Python list.sort(key=score, reverse=True) is a stable descending sort.
  let sorted := scored.mergeSort (fun x y => x.2 ≥ y.2)
  match sorted with
  | [] => -- unreachable: `sorted` is a permutation of the non-empty `scored`
    { kind := "none", confidence := 0, reason := "no next_actions in memory" }
  | (best, best_score) :: tail =>
    let second_score := match tail with | [] => 0 | (_, s) :: _ => s
    if best_score ≥ 8 && best_score ≥ second_score + 3 then
      { kind := "action", action := some best, confidence := 85,
        reason := "keyword_match score=" ++ toString best_score ++
          " margin=" ++ toString (best_score - second_score) }
    else if is_ack_or_continue user_text && truthy default_id then
      match actions.find? (fun a => pyEqStr a.id default_id) with
      | some a =>
        { kind := "action", action := some a, confidence := 80,
          reason := "ack_or_continue -> default_action" }
      | Option.none =>
        { kind := "action", action := some a0, confidence := 70,
          reason := "ack_or_continue -> default missing -> first_action" }
    else
      let options := (actions.take 3).map
        (fun a => if a.label ≠ "" then a.label else a.id)
      let opt_text := String.intercalate "; "
        (options.mapIdx (fun i x => toString (i + 1) ++ ") " ++ x))
      { kind := "clarify",
        clarify_prompt :=
          some ("Quick check: which one did you mean — " ++ opt_text ++ "?"),
        confidence := 40,
        reason := "ambiguous best_score=" ++ toString best_score ++
          " second_score=" ++ toString second_score }

/-- `resolve_followup` from the source: resolve a user continuation message
against structured followups in memory. -/
def resolve_followup (user_text : String)
    (last_context : List (String × MemVal)) : Except String FollowupResolution :=
  match _load_actions_from_memory last_context with
  | Except.error e => Except.error e
  | Except.ok (actions, default_id) =>
    match actions with
    | [] =>
      Except.ok { kind := "none", confidence := 0,
                  reason := "no next_actions in memory" }
    | a0 :: rest =>
      match _ordinal_pick user_text with
      | some idx =>
        if h : idx < (a0 :: rest).length then
          Except.ok { kind := "action", action := some ((a0 :: rest).get ⟨idx, h⟩),
                      confidence := 90,
                      reason := "ordinal_pick=" ++ toString idx }
        else Except.ok (_keyword_step user_text a0 rest default_id)
      | Option.none => Except.ok (_keyword_step user_text a0 rest default_id)

/-! ## Confidence scorer (`validator.py`) -/

/-- The `timestamp` field of a price snapshot: absent (or falsy), a valid
ISO string parsing to the instant `t` (seconds), or a present but
unparseable value (on which `datetime.fromisoformat` raises and the
source's bare `except` catches). -/
inductive TsVal where
  | absent : TsVal
  | valid (t : Int) : TsVal
  | invalid : TsVal
deriving DecidableEq

/-- The `current` price snapshot: truthiness of `current_price`, plus the
timestamp field. -/
structure CurrentSnap where
  has_price : Bool
  timestamp : TsVal
deriving DecidableEq

/-- The `company` profile: truthiness of the four fields the scorer reads. -/
structure CompanySnap where
  has_name : Bool
  has_description : Bool
  has_sector : Bool
  has_industry : Bool
deriving DecidableEq

/-- The value of `historical.get('data_points', 0)`: a number, or a
non-numeric (string) value on which Python's `>` comparison with an int
raises `TypeError`. -/
inductive DataPointsVal where
  | int (n : Int) : DataPointsVal
  | str (s : String) : DataPointsVal
deriving DecidableEq

/-- The `historical` series summary. -/
structure HistoricalSnap where
  data_points : DataPointsVal
deriving DecidableEq

/-- The stock-data bundle consumed by `calculate_confidence`
(`market_data.get_stock_data()` result).  `Option.none` for a block models
an absent or falsy (`None` / empty dict) value. -/
structure StockBundle where
  success : Bool
  current : Option CurrentSnap
  company : Option CompanySnap
  historical : Option HistoricalSnap
deriving DecidableEq

/-- An article from web search; the scorer only ever reads the length of
the article list. -/
structure Article where
  title : String := ""
  source : String := ""
deriving DecidableEq

/-- The freshness buckets of the price component: points and missing-data
notes as a function of the age `now - data_time` in seconds. -/
def freshness_points (age : Int) : Nat × List String :=
  if age < 20 * 60 then (30, [])                -- age < timedelta(minutes=20)
  else if age < 3600 then (25, [])              -- age < timedelta(hours=1)
  else if age < 24 * 3600 then (18, ["Price data is from earlier today"])
  else (10, ["Price data is over 1 day old"])

/-- The current-price component of `calculate_confidence` (max 30 points). -/
def price_component (now : Int) (current : Option CurrentSnap) :
    Nat × List String :=
  match current with
  | Option.none => (0, ["Current price not available"])
  | some c =>
    if c.has_price then
      match c.timestamp with
      | TsVal.valid t => freshness_points (now - t)
      | TsVal.invalid => (20, [])   -- has data but can't verify freshness
      | TsVal.absent => (20, [])    -- has price but no timestamp
    else (0, ["Current price not available"])

/-- The company-info component of `calculate_confidence` (20 points plus up
to 5 bonus). -/
def company_component (company : Option CompanySnap) : Nat × List String :=
  match company with
  | Option.none => (0, ["Company information not available"])
  | some c =>
    if c.has_name then
      (20 + (if c.has_description then 3 else 0) +
        (if c.has_sector && c.has_industry then 2 else 0), [])
    else (0, ["Company information not available"])

/-- The historical-data component of `calculate_confidence` (max 20
points).  A non-numeric `data_points` value raises `TypeError` at the
`> 20` comparison. -/
def historical_component (historical : Option HistoricalSnap) :
    Except String (Nat × List String) :=
  match historical with
  | Option.none => Except.ok (0, ["Historical data not available"])
  | some h =>
    match h.data_points with
    | DataPointsVal.int n =>
      if n > 20 then Except.ok (20, [])
      else if n > 5 then Except.ok (12, ["Limited historical data"])
      else Except.ok (5, ["Very limited historical data"])
    | DataPointsVal.str _ =>
      Except.error "TypeError: not supported between instances of str and int"

/-- The article-coverage component of `calculate_confidence` (max 30
points).  `Option.none` models the argument being absent (article search
not performed). -/
def article_component (articles : Option (List Article)) : Nat × List String :=
  match articles with
  | Option.none => (0, ["Article search not performed"])
  | some arts =>
    let article_count := arts.length
    if article_count ≥ 3 then (30, [])
    else if article_count ≥ 2 then
      (20, ["Limited recent article coverage (only 2 articles)"])
    else if article_count ≥ 1 then
      (10, ["Very limited article coverage (only 1 article)"])
    else (0, ["No recent articles found from trusted sources"])

/-- `calculate_confidence` from the source, with `datetime.now()` made an
explicit `now : Int` parameter.  Returns `(level, score, missing)` or a
`TypeError` raised by the historical component. -/
def calculate_confidence (now : Int) (stock_data : StockBundle)
    (articles : Option (List Article)) :
    Except String (String × Nat × List String) :=
  if ¬ stock_data.success then
    Except.ok ("LOW", 0, ["Failed to fetch any data"])
  else
    let pc := price_component now stock_data.current
    let cc := company_component stock_data.company
    match historical_component stock_data.historical with
    | Except.error e => Except.error e
    | Except.ok hc =>
      let ac := article_component articles
      let score := min (pc.1 + cc.1 + hc.1 + ac.1) 100   -- cap score at 100
      let level :=
        if score ≥ 80 then "HIGH"
        else if score ≥ 50 then "MEDIUM"
        else "LOW"
      Except.ok (level, score, ((pc.2 ++ cc.2) ++ hc.2) ++ ac.2)

/-- Display properties of a confidence badge. -/
structure Badge where
  color : String
  emoji : String
  message : String
  css_class : String
deriving DecidableEq

/-- `get_confidence_badge` from the source (unknown levels fall back to the
LOW badge). -/
def get_confidence_badge (level : String) : Badge :=
  if level = "HIGH" then
    { color := "green", emoji := "🟢",
      message := "High confidence - data is fresh and complete",
      css_class := "confidence-high" }
  else if level = "MEDIUM" then
    { color := "yellow", emoji := "🟡",
      message := "Medium confidence - some data may be incomplete",
      css_class := "confidence-medium" }
  else
    { color := "red", emoji := "🔴",
      message := "Low confidence - data is missing or outdated",
      css_class := "confidence-low" }

/-- `_get_recommendation` from the source. -/
def _get_recommendation (level : String) (missing : List String) : String :=
  if level = "HIGH" then
    "Data quality is excellent. Safe to provide detailed analysis."
  else if level = "MEDIUM" then
    "Data is acceptable but incomplete. Consider mentioning: " ++
      String.intercalate ", " (missing.take 2)
  else
    "Data quality is too low. Recommend user try again later or check ticker symbol."

/-- The validation-result dict built by `validate_stock_data`. -/
structure ValidationResult where
  valid : Bool
  confidence_level : String
  confidence_score : Nat
  badge : Badge
  missing_data : List String
  has_current_price : Bool
  has_company_info : Bool
  has_historical_data : Bool
  has_articles : Bool
  article_count : Nat
  recommendation : String
deriving DecidableEq

/-- Truthiness of `historical.get('data_points')` for the
`has_historical_data` flag. -/
def dataPointsTruthy (historical : Option HistoricalSnap) : Bool :=
  match historical with
  | Option.none => false
  | some h =>
    match h.data_points with
    | DataPointsVal.int n => n ≠ 0
    | DataPointsVal.str s => s ≠ ""

/-- `validate_stock_data` from the source (same explicit `now`). -/
def validate_stock_data (now : Int) (stock_data : StockBundle)
    (articles : Option (List Article)) : Except String ValidationResult :=
  match calculate_confidence now stock_data articles with
  | Except.error e => Except.error e
  | Except.ok (level, score, missing) =>
    Except.ok
      { valid := level = "HIGH" || level = "MEDIUM"
        confidence_level := level
        confidence_score := score
        badge := get_confidence_badge level
        missing_data := missing
        has_current_price := (stock_data.current.map (·.has_price)).getD false
        has_company_info := (stock_data.company.map (·.has_name)).getD false
        has_historical_data := dataPointsTruthy stock_data.historical
        has_articles := match articles with
          | Option.none => false
          | some arts => ¬ arts.isEmpty
        article_count := match articles with
          | Option.none => 0
          | some arts => arts.length
        recommendation := _get_recommendation level missing }

/-! ## Helper lemmas -/

/-- Concrete two-action memory used by several witnesses. -/
def memAB : List (String × MemVal) :=
  [("next_actions", MemVal.list
      [MemVal.dict [("id", MemVal.str "alpha"), ("query", MemVal.str "q1")],
       MemVal.dict [("id", MemVal.str "beta"), ("query", MemVal.str "q2")]]),
   ("default_action_id", MemVal.str "beta")]

/-- First concrete action of `memAB`. -/
def actAlpha : FollowupAction := ⟨"alpha", "", "q1", []⟩

/-- Second concrete action of `memAB`. -/
def actBeta : FollowupAction := ⟨"beta", "", "q2", []⟩

theorem memAB_loads :
    _load_actions_from_memory memAB =
      Except.ok ([actAlpha, actBeta], MemVal.str "beta") := by
  rfl

/-- Claim C1: for every memory record yielding at least one valid action and
every user text from which an ordinal reference resolves to an in-bounds
index `i` (a token of the fixed ordinal vocabulary, first matching token in
token order, or the `option N` / `choice N` pattern giving index `N-1`),
`resolve_followup` returns `kind=action` with the action at index `i` and
confidence 90, regardless of the keyword scores of any action. -/
theorem C1_ordinal_precedence (text : String)
    (mem : List (String × MemVal)) (actions : List FollowupAction)
    (dflt : MemVal) (i : Nat)
    (hload : _load_actions_from_memory mem = Except.ok (actions, dflt))
    (hord : _ordinal_pick text = some i) (hi : i < actions.length) :
    resolve_followup text mem =
      Except.ok { kind := "action", action := some (actions.get ⟨i, hi⟩),
                  confidence := 90, reason := "ordinal_pick=" ++ toString i } := by
  cases actions with
  | nil => simp at hi
  | cons a0 rest =>
    simp only [resolve_followup, hload, hord]
    rw [dif_pos hi]

theorem C1_ordinal_precedence_witness :
    _load_actions_from_memory memAB =
        Except.ok ([actAlpha, actBeta], MemVal.str "beta") ∧
      _ordinal_pick "the first one please" = some 0 ∧
      resolve_followup "the first one please" memAB =
        Except.ok { kind := "action", action := some actAlpha,
                    confidence := 90, reason := "ordinal_pick=" ++ toString 0 } :=
  ⟨memAB_loads, rfl,
    C1_ordinal_precedence "the first one please" memAB [actAlpha, actBeta]
      (MemVal.str "beta") 0 memAB_loads rfl (by decide)⟩

/-- Claim C2: whenever the bundle's `success` field is false,
`calculate_confidence` (and hence `validate_stock_data`) short-circuits to
level LOW, score 0, and missing list exactly
`["Failed to fetch any data"]`, regardless of all other fields and of the
articles argument. -/
theorem C2_failure_short_circuit (now : Int) (b : StockBundle)
    (articles : Option (List Article)) (h : b.success = false) :
    calculate_confidence now b articles =
        Except.ok ("LOW", 0, ["Failed to fetch any data"]) ∧
      ∃ r, validate_stock_data now b articles = Except.ok r ∧
        r.confidence_level = "LOW" ∧ r.confidence_score = 0 ∧
        r.missing_data = ["Failed to fetch any data"] := by
  have hc : calculate_confidence now b articles =
      Except.ok ("LOW", 0, ["Failed to fetch any data"]) := by
    simp [calculate_confidence, h]
  have hv : validate_stock_data now b articles = Except.ok
      { valid := false, confidence_level := "LOW", confidence_score := 0,
        badge := get_confidence_badge "LOW",
        missing_data := ["Failed to fetch any data"],
        has_current_price := (b.current.map (·.has_price)).getD false,
        has_company_info := (b.company.map (·.has_name)).getD false,
        has_historical_data := dataPointsTruthy b.historical,
        has_articles := match articles with
          | Option.none => false
          | some arts => ¬ arts.isEmpty
        article_count := match articles with
          | Option.none => 0
          | some arts => arts.length
        recommendation :=
          _get_recommendation "LOW" ["Failed to fetch any data"] } := by
    cases articles <;> simp [validate_stock_data, hc]
  exact ⟨hc, _, hv, rfl, rfl, rfl⟩

theorem C2_failure_short_circuit_witness :
    (({ success := false, current := some ⟨true, TsVal.valid 0⟩,
        company := some ⟨true, true, true, true⟩,
        historical := some ⟨DataPointsVal.str "junk"⟩ } : StockBundle).success
          = false) ∧
      calculate_confidence 0
        { success := false, current := some ⟨true, TsVal.valid 0⟩,
          company := some ⟨true, true, true, true⟩,
          historical := some ⟨DataPointsVal.str "junk"⟩ }
        (some [{}, {}]) =
        Except.ok ("LOW", 0, ["Failed to fetch any data"]) :=
  ⟨rfl,
    (C2_failure_short_circuit 0
      { success := false, current := some ⟨true, TsVal.valid 0⟩,
        company := some ⟨true, true, true, true⟩,
        historical := some ⟨DataPointsVal.str "junk"⟩ }
      (some [{}, {}]) rfl).1⟩

/-- Claim C5: a bundle with `success`, a present current price whose
timestamp is fresher than 20 minutes, a full company profile (name,
description, sector, industry), `historical.data_points = 50` and four
articles scores exactly 100 (30+25+20+30 = 105 clamped to 100) with level
HIGH; and in general the returned score is clamped to at most 100 before
classification. -/
theorem C5_full_bundle_and_clamp :
    (∀ (now t : Int) (arts : List Article), arts.length = 4 →
      now - t < 20 * 60 →
      calculate_confidence now
        { success := true, current := some ⟨true, TsVal.valid t⟩,
          company := some ⟨true, true, true, true⟩,
          historical := some ⟨DataPointsVal.int 50⟩ } (some arts) =
        Except.ok ("HIGH", 100, [])) ∧
    (∀ (now : Int) (b : StockBundle) (articles : Option (List Article))
      (level : String) (score : Nat) (missing : List String),
      calculate_confidence now b articles = Except.ok (level, score, missing) →
      score ≤ 100) := by
  constructor
  · intro now t arts harts h
    have h30 : freshness_points (now - t) = (30, []) := by
      unfold freshness_points
      rw [if_pos h]
    simp [calculate_confidence, price_component, company_component,
      historical_component, article_component, h30, harts]
  · intro now b articles level score missing h
    unfold calculate_confidence at h
    split at h
    · simp only [Except.ok.injEq, Prod.mk.injEq] at h
      omega
    · split at h
      · simp at h
      · simp only [Except.ok.injEq, Prod.mk.injEq] at h
        obtain ⟨-, hs, -⟩ := h
        rw [← hs]
        exact Nat.min_le_right _ _

theorem C5_full_bundle_and_clamp_witness :
    (([{}, {}, {}, {}] : List Article).length = 4) ∧
      ((0 : Int) - 0 < 20 * 60) ∧
      calculate_confidence 0
        { success := true, current := some ⟨true, TsVal.valid 0⟩,
          company := some ⟨true, true, true, true⟩,
          historical := some ⟨DataPointsVal.int 50⟩ }
        (some [{}, {}, {}, {}]) = Except.ok ("HIGH", 100, []) :=
  ⟨rfl, by decide,
    C5_full_bundle_and_clamp.1 0 0 [{}, {}, {}, {}] rfl (by decide)⟩

/-- Replace the current-price timestamp of a bundle (when a current block
exists), leaving everything else unchanged. -/
def withTs (b : StockBundle) (t : Int) : StockBundle :=
  { b with current := b.current.map (fun c => { c with timestamp := TsVal.valid t }) }

theorem withTs_success (b : StockBundle) (t : Int) :
    (withTs b t).success = b.success := rfl

theorem withTs_company (b : StockBundle) (t : Int) :
    (withTs b t).company = b.company := rfl

theorem withTs_historical (b : StockBundle) (t : Int) :
    (withTs b t).historical = b.historical := rfl

theorem freshness_points_monotone {a1 a2 : Int} (h : a1 ≤ a2) :
    (freshness_points a2).1 ≤ (freshness_points a1).1 := by
  unfold freshness_points
  split_ifs <;> simp <;> omega

/-- Claim C6: `calculate_confidence` is monotonic in price freshness.  For
two bundles identical except for the current-price timestamp, the younger
timestamp (smaller age `now - t`) never scores lower; the 10-minute versus
2-day comparison of the spec is the instance
`now - t1 = 600 ≤ 172800 = now - t2`, and the bucket points 30, 25, 18, 10
are non-increasing as age increases (`freshness_points_monotone`). -/
theorem C6_freshness_monotone (now : Int) (b : StockBundle)
    (articles : Option (List Article)) (t1 t2 : Int)
    (l1 l2 : String) (s1 s2 : Nat) (m1 m2 : List String)
    (h12 : now - t1 ≤ now - t2)
    (h1 : calculate_confidence now (withTs b t1) articles = Except.ok (l1, s1, m1))
    (h2 : calculate_confidence now (withTs b t2) articles = Except.ok (l2, s2, m2)) :
    s2 ≤ s1 := by
  have hp : (price_component now (withTs b t2).current).1 ≤
      (price_component now (withTs b t1).current).1 := by
    cases hc : b.current with
    | none => simp [withTs, hc]
    | some c =>
      have e1 : (withTs b t1).current = some ⟨c.has_price, TsVal.valid t1⟩ := by
        simp [withTs, hc]
      have e2 : (withTs b t2).current = some ⟨c.has_price, TsVal.valid t2⟩ := by
        simp [withTs, hc]
      rw [e1, e2]
      cases hpr : c.has_price with
      | true => exact freshness_points_monotone (by omega)
      | false => exact le_refl _
  unfold calculate_confidence at h1 h2
  cases hsucc : b.success with
  | false =>
    simp only [withTs_success, hsucc] at h1 h2
    simp at h1 h2
    omega
  | true =>
    simp only [withTs_success, withTs_company, withTs_historical, hsucc] at h1 h2
    rw [if_neg (by simp : ¬ ¬ True)] at h1 h2
    cases hh : historical_component b.historical with
    | error e =>
      rw [hh] at h1
      simp at h1
    | ok hc =>
      rw [hh] at h1 h2
      simp only [Except.ok.injEq, Prod.mk.injEq] at h1 h2
      obtain ⟨-, hs1, -⟩ := h1
      obtain ⟨-, hs2, -⟩ := h2
      rw [← hs1, ← hs2]
      exact min_le_min (by omega) (le_refl 100)

theorem C6_freshness_monotone_witness :
    ((200000 : Int) - 199400 ≤ (200000 : Int) - 27200) ∧
      calculate_confidence 200000
          (withTs { success := true, current := some ⟨true, TsVal.absent⟩,
                    company := Option.none, historical := Option.none } 199400)
          Option.none = Except.ok ("LOW", 30,
            ["Company information not available",
             "Historical data not available", "Article search not performed"]) ∧
      calculate_confidence 200000
          (withTs { success := true, current := some ⟨true, TsVal.absent⟩,
                    company := Option.none, historical := Option.none } 27200)
          Option.none = Except.ok ("LOW", 10,
            ["Price data is over 1 day old", "Company information not available",
             "Historical data not available", "Article search not performed"]) ∧
      (10 : Nat) ≤ 30 :=
  ⟨by decide, by rfl, by rfl,
    C6_freshness_monotone 200000
      { success := true, current := some ⟨true, TsVal.absent⟩,
        company := Option.none, historical := Option.none }
      Option.none 199400 27200 "LOW" "LOW" 30 10
      ["Company information not available", "Historical data not available",
       "Article search not performed"]
      ["Price data is over 1 day old", "Company information not available",
       "Historical data not available", "Article search not performed"]
      (by decide) (by rfl) (by rfl)⟩

/-- Translate the explicit clock dependence of a bundle: shift every valid
current-price timestamp by `d` seconds. -/
def shiftBundle (b : StockBundle) (d : Int) : StockBundle :=
  { b with current := b.current.map (fun c =>
      { c with timestamp := match c.timestamp with
          | TsVal.valid t => TsVal.valid (t + d)
          | ts => ts }) }

theorem shiftBundle_success (b : StockBundle) (d : Int) :
    (shiftBundle b d).success = b.success := rfl

theorem shiftBundle_company (b : StockBundle) (d : Int) :
    (shiftBundle b d).company = b.company := rfl

theorem shiftBundle_historical (b : StockBundle) (d : Int) :
    (shiftBundle b d).historical = b.historical := rfl

/-- Claim C7: both `resolve_followup` and the confidence scorer are
deterministic — two invocations with identical inputs (including the same
explicit `now`, which the embedding takes as a parameter as the spec
requires) yield identical results; moreover `calculate_confidence` depends
on time only through the differences `now - timestamp`, so translating the
clock and every timestamp together leaves the result unchanged (no hidden
clock capture beyond the explicit `now`). -/
theorem C7_deterministic :
    (∀ (user_text : String) (last_context : List (String × MemVal)),
      resolve_followup user_text last_context =
        resolve_followup user_text last_context) ∧
    (∀ (now : Int) (b : StockBundle) (articles : Option (List Article)),
      calculate_confidence now b articles = calculate_confidence now b articles) ∧
    (∀ (d now : Int) (b : StockBundle) (articles : Option (List Article)),
      calculate_confidence (now + d) (shiftBundle b d) articles =
        calculate_confidence now b articles) := by
  refine ⟨fun _ _ => rfl, fun _ _ _ => rfl, fun d now b articles => ?_⟩
  have hp : price_component (now + d) (shiftBundle b d).current =
      price_component now b.current := by
    cases hc : b.current with
    | none =>
      have e1 : (shiftBundle b d).current = Option.none := by
        simp [shiftBundle, hc]
      rw [e1]
      rfl
    | some c =>
      obtain ⟨cp, cts⟩ := c
      cases cts with
      | valid t =>
        have e1 : (shiftBundle b d).current =
            some ⟨cp, TsVal.valid (t + d)⟩ := by
          simp [shiftBundle, hc]
        rw [e1]
        cases cp with
        | true =>
          show freshness_points ((now + d) - (t + d)) =
            freshness_points (now - t)
          rw [show (now + d) - (t + d) = now - t by ring]
        | false => rfl
      | absent =>
        have e1 : (shiftBundle b d).current = some ⟨cp, TsVal.absent⟩ := by
          simp [shiftBundle, hc]
        rw [e1]
        rfl
      | invalid =>
        have e1 : (shiftBundle b d).current = some ⟨cp, TsVal.invalid⟩ := by
          simp [shiftBundle, hc]
        rw [e1]
        rfl
  simp only [calculate_confidence, shiftBundle_success, shiftBundle_company,
    shiftBundle_historical, hp]

theorem eq_empty_of_length_zero {s : String} (h : s.length = 0) : s = "" := by
  obtain ⟨l⟩ := s
  cases l with
  | nil => rfl
  | cons c cs => simp [String.length] at h

theorem intercalate_go_ne (s : String) :
    ∀ (rest : List String) (acc : String), acc ≠ "" →
      String.intercalate.go acc s rest ≠ ""
  | [], acc, h => by simpa [String.intercalate.go] using h
  | a :: as, acc, h => by
    rw [String.intercalate.go]
    exact intercalate_go_ne s as (acc ++ s ++ a) (by
      intro he
      apply h
      have h0 : (acc ++ s ++ a).length = 0 := by rw [he]; rfl
      rw [String.length_append, String.length_append] at h0
      exact eq_empty_of_length_zero (by omega))

theorem intercalate_space_ne {t : String} (rest : List String) (h : t ≠ "") :
    String.intercalate " " (t :: rest) ≠ "" := by
  rw [String.intercalate]
  exact intercalate_go_ne " " rest t h

theorem tokens_ne_empty {s t : String} (h : t ∈ _tokens s) : t ≠ "" := by
  unfold _tokens at h
  obtain ⟨l, hl, rfl⟩ := List.mem_map.mp h
  simp [_token_chunks] at hl
  intro he
  have hd := congrArg String.data he
  simp at hd
  exact hl.2 hd

theorem tokens_of_normalize_empty {s : String} (h : _normalize_text s = "") :
    _tokens s = [] := by
  cases ht : _tokens s with
  | nil => rfl
  | cons t rest =>
    unfold _normalize_text at h
    rw [ht] at h
    exact absurd h (intercalate_space_ne rest
      (tokens_ne_empty (ht ▸ List.mem_cons_self t rest)))

theorem score_of_tokens_empty {text : String} (a : FollowupAction)
    (h : _tokens text = []) : _score_action_match text a = 0 := by
  unfold _score_action_match
  rw [h]
  rfl

/-- Behaviour of steps 2–4 when every action's keyword score is zero: the
margin rule cannot fire, so the resolver falls through to the
acknowledgment step (default action / first-action fallback) or to the
clarify outcome. -/
theorem keyword_step_all_zero (user_text : String) (a0 : FollowupAction)
    (rest : List FollowupAction) (default_id : MemVal)
    (h : ∀ a ∈ a0 :: rest, _score_action_match user_text a = 0) :
    (∀ a : FollowupAction, is_ack_or_continue user_text = true →
      truthy default_id = true →
      (a0 :: rest).find? (fun x => pyEqStr x.id default_id) = some a →
      _keyword_step user_text a0 rest default_id =
        { kind := "action", action := some a, confidence := 80,
          reason := "ack_or_continue -> default_action" }) ∧
    (is_ack_or_continue user_text = true → truthy default_id = true →
      (a0 :: rest).find? (fun x => pyEqStr x.id default_id) = Option.none →
      _keyword_step user_text a0 rest default_id =
        { kind := "action", action := some a0, confidence := 70,
          reason := "ack_or_continue -> default missing -> first_action" }) ∧
    ((is_ack_or_continue user_text && truthy default_id) = false →
      ∃ p r, _keyword_step user_text a0 rest default_id =
        { kind := "clarify", action := Option.none, clarify_prompt := some p,
          confidence := 40, reason := r }) := by
  have hall : ∀ p ∈ ((a0 :: rest).map
      (fun a => (a, _score_action_match user_text a))).mergeSort
        (fun x y => x.2 ≥ y.2), p.2 = 0 := by
    intro p hp
    have hmem := (List.mergeSort_perm ((a0 :: rest).map
      (fun a => (a, _score_action_match user_text a)))
      (fun x y => x.2 ≥ y.2)).mem_iff.mp hp
    obtain ⟨a, ha, rfl⟩ := List.mem_map.mp hmem
    exact h a ha
  cases hms : ((a0 :: rest).map
      (fun a => (a, _score_action_match user_text a))).mergeSort
        (fun x y => x.2 ≥ y.2) with
  | nil =>
    have hlen := @List.length_mergeSort _ (fun x y => x.2 ≥ y.2)
      ((a0 :: rest).map (fun a => (a, _score_action_match user_text a)))
    rw [hms] at hlen
    simp at hlen
  | cons bs tl =>
    obtain ⟨best, s⟩ := bs
    have hs0 : s = 0 := hall (best, s) (hms ▸ List.mem_cons_self _ _)
    subst hs0
    refine ⟨?_, ?_, ?_⟩
    · intro a hack htr hfind
      cases tl with
      | nil =>
        simp only [_keyword_step, hms]
        simp [hack, htr, hfind]
      | cons q tq =>
        obtain ⟨b2, s2⟩ := q
        have hs2 : s2 = 0 :=
          hall (b2, s2) (hms ▸ List.mem_cons_of_mem _ (List.mem_cons_self _ _))
        subst hs2
        simp only [_keyword_step, hms]
        simp [hack, htr, hfind]
    · intro hack htr hfind
      cases tl with
      | nil =>
        simp only [_keyword_step, hms]
        simp [hack, htr, hfind]
      | cons q tq =>
        obtain ⟨b2, s2⟩ := q
        have hs2 : s2 = 0 :=
          hall (b2, s2) (hms ▸ List.mem_cons_of_mem _ (List.mem_cons_self _ _))
        subst hs2
        simp only [_keyword_step, hms]
        simp [hack, htr, hfind]
    · intro hcond
      cases tl with
      | nil =>
        simp only [_keyword_step, hms]
        simp only [hcond]
        norm_num
      | cons q tq =>
        obtain ⟨b2, s2⟩ := q
        have hs2 : s2 = 0 :=
          hall (b2, s2) (hms ▸ List.mem_cons_of_mem _ (List.mem_cons_self _ _))
        subst hs2
        simp only [_keyword_step, hms]
        simp only [hcond]
        norm_num

/-- Claim C4: for an acknowledgment text with no keyword overlap with any
action and no ordinal reference, when the memory's `default_action_id`
matches some action's id, `resolve_followup` picks that action with
confidence 80; when the default id matches no current action (stale
memory), it falls back to the first action with confidence 70 and a
distinct fallback reason. -/
theorem C4_ack_default (text : String) (mem : List (String × MemVal))
    (a0 : FollowupAction) (rest : List FollowupAction) (dflt : MemVal)
    (hload : _load_actions_from_memory mem = Except.ok (a0 :: rest, dflt))
    (hord : _ordinal_pick text = Option.none)
    (hscore : ∀ a ∈ a0 :: rest, _score_action_match text a = 0)
    (hack : is_ack_or_continue text = true)
    (htr : truthy dflt = true) :
    (∀ a : FollowupAction,
      (a0 :: rest).find? (fun x => pyEqStr x.id dflt) = some a →
      resolve_followup text mem = Except.ok
        { kind := "action", action := some a, confidence := 80,
          reason := "ack_or_continue -> default_action" }) ∧
    ((a0 :: rest).find? (fun x => pyEqStr x.id dflt) = Option.none →
      resolve_followup text mem = Except.ok
        { kind := "action", action := some a0, confidence := 70,
          reason := "ack_or_continue -> default missing -> first_action" }) := by
  have hres : resolve_followup text mem =
      Except.ok (_keyword_step text a0 rest dflt) := by
    simp only [resolve_followup, hload, hord]
  obtain ⟨h80, h70, -⟩ := keyword_step_all_zero text a0 rest dflt hscore
  exact ⟨fun a hf => by rw [hres, h80 a hack htr hf],
         fun hf => by rw [hres, h70 hack htr hf]⟩

theorem C4_ack_default_witness :
    is_ack_or_continue "yeah do that" = true ∧
      _ordinal_pick "yeah do that" = Option.none ∧
      (∀ a ∈ actAlpha :: [actBeta], _score_action_match "yeah do that" a = 0) ∧
      (actAlpha :: [actBeta]).find?
        (fun x => pyEqStr x.id (MemVal.str "beta")) = some actBeta ∧
      resolve_followup "yeah do that" memAB = Except.ok
        { kind := "action", action := some actBeta, confidence := 80,
          reason := "ack_or_continue -> default_action" } :=
  ⟨rfl, rfl, by decide, rfl,
    (C4_ack_default "yeah do that" memAB actAlpha [actBeta] (MemVal.str "beta")
      memAB_loads rfl (by decide) rfl rfl).1 actBeta rfl⟩

/-- Claim C10: for every memory record yielding at least one valid action,
if the user text normalizes to the empty string (empty, or only whitespace
and punctuation), `resolve_followup` returns `kind=clarify` with
confidence 40 — not `kind=none`: no ordinal matches, every keyword score is
0 (below threshold 8), and the acknowledgment check rejects empty
normalized text. -/
theorem C10_empty_text_clarify (text : String) (mem : List (String × MemVal))
    (a0 : FollowupAction) (rest : List FollowupAction) (dflt : MemVal)
    (hload : _load_actions_from_memory mem = Except.ok (a0 :: rest, dflt))
    (hnorm : _normalize_text text = "") :
    ∃ p r, resolve_followup text mem = Except.ok
      { kind := "clarify", action := Option.none, clarify_prompt := some p,
        confidence := 40, reason := r } := by
  have htok : _tokens text = [] := tokens_of_normalize_empty hnorm
  have hscore : ∀ a ∈ a0 :: rest, _score_action_match text a = 0 :=
    fun a _ => score_of_tokens_empty a htok
  have hord : _ordinal_pick text = Option.none := by
    simp only [_ordinal_pick, htok, hnorm]
    rfl
  have hack : is_ack_or_continue text = false := by
    simp only [is_ack_or_continue, hnorm]
    rfl
  have hres : resolve_followup text mem =
      Except.ok (_keyword_step text a0 rest dflt) := by
    simp only [resolve_followup, hload, hord]
  obtain ⟨-, -, hcl⟩ := keyword_step_all_zero text a0 rest dflt hscore
  obtain ⟨p, r, he⟩ := hcl (by rw [hack]; rfl)
  exact ⟨p, r, by rw [hres, he]⟩

theorem C10_empty_text_clarify_witness :
    _normalize_text " ?!^&*  " = "" ∧
      ∃ p r, resolve_followup " ?!^&*  " memAB = Except.ok
        { kind := "clarify", action := Option.none, clarify_prompt := some p,
          confidence := 40, reason := r } :=
  ⟨rfl, C10_empty_text_clarify " ?!^&*  " memAB actAlpha [actBeta]
    (MemVal.str "beta") memAB_loads rfl⟩

/-- Exactly one of `action` / `clarify_prompt` is populated — the invariant
as literally stated by the spec. -/
def exactly_one_populated (r : FollowupResolution) : Bool :=
  (r.action.isSome && !r.clarify_prompt.isSome) ||
    (!r.action.isSome && r.clarify_prompt.isSome)

/-- The field/kind consistency actually maintained by the code: `action` is
populated exactly on `kind="action"`, `clarify_prompt` exactly on
`kind="clarify"`, and the `kind="none"` result populates neither. -/
def resolution_shape_ok (r : FollowupResolution) : Prop :=
  (r.kind = "action" ∧ r.action.isSome = true ∧ r.clarify_prompt = Option.none) ∨
  (r.kind = "clarify" ∧ r.action = Option.none ∧ r.clarify_prompt.isSome = true) ∨
  (r.kind = "none" ∧ r.action = Option.none ∧ r.clarify_prompt = Option.none)

theorem keyword_step_shape (user_text : String) (a0 : FollowupAction)
    (rest : List FollowupAction) (default_id : MemVal) :
    resolution_shape_ok (_keyword_step user_text a0 rest default_id) := by
  simp only [_keyword_step, resolution_shape_ok]
  split
  · exact Or.inr (Or.inr ⟨rfl, rfl, rfl⟩)
  · split_ifs with h1 h2
    · exact Or.inl ⟨rfl, rfl, rfl⟩
    · split
      · exact Or.inl ⟨rfl, rfl, rfl⟩
      · exact Or.inl ⟨rfl, rfl, rfl⟩
    · exact Or.inr (Or.inl ⟨rfl, rfl, rfl⟩)

theorem C8_invariant_counterexample :
    resolve_followup "hello" [] = Except.ok
      { kind := "none", action := Option.none, clarify_prompt := Option.none,
        confidence := 0, reason := "no next_actions in memory" } ∧
    exactly_one_populated
      { kind := "none", action := Option.none, clarify_prompt := Option.none,
        confidence := 0, reason := "no next_actions in memory" } = false :=
  ⟨rfl, rfl⟩

/-- Claim C8 (amended): every resolution returned by `resolve_followup`
populates at most one of `action` / `clarify_prompt`, consistent with its
`kind` — `action` populated when `kind="action"`, `clarify_prompt` when
`kind="clarify"` — and the `kind="none"` result populates neither (so
"exactly one populated" fails precisely there). -/
theorem C8_invariant_amended (text : String) (mem : List (String × MemVal))
    (r : FollowupResolution)
    (h : resolve_followup text mem = Except.ok r) :
    resolution_shape_ok r := by
  cases hload : _load_actions_from_memory mem with
  | error e =>
    rw [show resolve_followup text mem = Except.error e by
      simp only [resolve_followup, hload]] at h
    simp at h
  | ok pair =>
    obtain ⟨actions, dflt⟩ := pair
    cases actions with
    | nil =>
      rw [show resolve_followup text mem = Except.ok
          { kind := "none", action := Option.none, clarify_prompt := Option.none,
            confidence := 0, reason := "no next_actions in memory" } by
        simp only [resolve_followup, hload]] at h
      simp only [Except.ok.injEq] at h
      rw [← h]
      exact Or.inr (Or.inr ⟨rfl, rfl, rfl⟩)
    | cons a0 rest =>
      cases hord : _ordinal_pick text with
      | none =>
        rw [show resolve_followup text mem =
            Except.ok (_keyword_step text a0 rest dflt) by
          simp only [resolve_followup, hload, hord]] at h
        simp only [Except.ok.injEq] at h
        rw [← h]
        exact keyword_step_shape text a0 rest dflt
      | some idx =>
        by_cases hlt : idx < (a0 :: rest).length
        · rw [show resolve_followup text mem = Except.ok
              { kind := "action", action := some ((a0 :: rest).get ⟨idx, hlt⟩),
                clarify_prompt := Option.none, confidence := 90,
                reason := "ordinal_pick=" ++ toString idx } by
            simp only [resolve_followup, hload, hord]
            rw [dif_pos hlt]] at h
          simp only [Except.ok.injEq] at h
          rw [← h]
          exact Or.inl ⟨rfl, rfl, rfl⟩
        · rw [show resolve_followup text mem =
              Except.ok (_keyword_step text a0 rest dflt) by
            simp only [resolve_followup, hload, hord]
            rw [dif_neg hlt]] at h
          simp only [Except.ok.injEq] at h
          rw [← h]
          exact keyword_step_shape text a0 rest dflt

theorem C8_invariant_amended_witness :
    resolve_followup "the second one please" memAB = Except.ok
      { kind := "action", action := some actBeta,
        clarify_prompt := Option.none, confidence := 90,
        reason := "ordinal_pick=" ++ toString 1 } ∧
    resolution_shape_ok
      { kind := "action", action := some actBeta,
        clarify_prompt := Option.none, confidence := 90,
        reason := "ordinal_pick=" ++ toString 1 } :=
  ⟨rfl, C8_invariant_amended "the second one please" memAB _ rfl⟩

/-- Full characterization of steps 2–4 given the head (and optional second
element) of the stable descending sort of the scored actions. -/
theorem keyword_step_eq (text : String) (a0 : FollowupAction)
    (rest : List FollowupAction) (dflt : MemVal) (best : FollowupAction)
    (bs ss : Nat) (tl : List (FollowupAction × Nat))
    (hsort : ((a0 :: rest).map
      (fun a => (a, _score_action_match text a))).mergeSort
        (fun x y => x.2 ≥ y.2) = (best, bs) :: tl)
    (hss : tl = [] ∧ ss = 0 ∨ ∃ b2 tl2, tl = (b2, ss) :: tl2) :
    _keyword_step text a0 rest dflt =
      if bs ≥ 8 && bs ≥ ss + 3 then
        { kind := "action", action := some best,
          clarify_prompt := Option.none, confidence := 85,
          reason := "keyword_match score=" ++ toString bs ++
            " margin=" ++ toString (bs - ss) }
      else if is_ack_or_continue text && truthy dflt then
        match (a0 :: rest).find? (fun a => pyEqStr a.id dflt) with
        | some a =>
          { kind := "action", action := some a, clarify_prompt := Option.none,
            confidence := 80, reason := "ack_or_continue -> default_action" }
        | Option.none =>
          { kind := "action", action := some a0, clarify_prompt := Option.none,
            confidence := 70,
            reason := "ack_or_continue -> default missing -> first_action" }
      else
        { kind := "clarify", action := Option.none,
          clarify_prompt := some ("Quick check: which one did you mean — " ++
            String.intercalate "; " ((((a0 :: rest).take 3).map
              (fun a => if a.label ≠ "" then a.label else a.id)).mapIdx
                (fun i x => toString (i + 1) ++ ") " ++ x)) ++ "?"),
          confidence := 40,
          reason := "ambiguous best_score=" ++ toString bs ++
            " second_score=" ++ toString ss } := by
  rcases hss with ⟨rfl, rfl⟩ | ⟨b2, tl2, rfl⟩ <;>
    simp only [_keyword_step, hsort]

/-- Concrete action with id `scan_aa` (keyword score 8 against
"ok scan aa"). -/
def actScanAA : FollowupAction := ⟨"scan_aa", "", "q1", []⟩

/-- Concrete action with id `scan` and keyword phrase "aa zz" (keyword
score 7 against "ok scan aa"). -/
def actScan : FollowupAction := ⟨"scan", "", "q2", ["aa zz"]⟩

/-- Memory holding the two `scan` actions, with no explicit default id. -/
def memScan : List (String × MemVal) :=
  [("next_actions", MemVal.list
    [MemVal.dict [("id", MemVal.str "scan_aa"), ("query", MemVal.str "q1")],
     MemVal.dict [("id", MemVal.str "scan"), ("query", MemVal.str "q2"),
       ("keywords", MemVal.list [MemVal.str "aa zz"])]])]

/-- Memory holding only the `scan_aa` action. -/
def memScan1 : List (String × MemVal) :=
  [("next_actions", MemVal.list
    [MemVal.dict [("id", MemVal.str "scan_aa"), ("query", MemVal.str "q1")]])]

theorem C3_margin_counterexample :
    _score_action_match "ok scan aa" actScanAA = 8 ∧
    _score_action_match "ok scan aa" actScan = 7 ∧
    is_ack_or_continue "ok scan aa" = true ∧
    resolve_followup "ok scan aa" memScan = Except.ok
      { kind := "action", action := some actScanAA,
        clarify_prompt := Option.none, confidence := 80,
        reason := "ack_or_continue -> default_action" } := by
  refine ⟨rfl, rfl, rfl, ?_⟩
  have hload : _load_actions_from_memory memScan =
      Except.ok (actScanAA :: [actScan], MemVal.str "scan_aa") := rfl
  have hord : _ordinal_pick "ok scan aa" = Option.none := rfl
  have hres : resolve_followup "ok scan aa" memScan =
      Except.ok (_keyword_step "ok scan aa" actScanAA [actScan]
        (MemVal.str "scan_aa")) := by
    simp only [resolve_followup, hload, hord]
  rw [hres]
  have hmap : List.map (fun a => (a, _score_action_match "ok scan aa" a))
      (actScanAA :: [actScan]) = [(actScanAA, 8), (actScan, 7)] := rfl
  have hsort : (List.map (fun a => (a, _score_action_match "ok scan aa" a))
      (actScanAA :: [actScan])).mergeSort (fun x y => x.2 ≥ y.2) =
      (actScanAA, 8) :: [(actScan, 7)] := by
    rw [hmap]
    simp [List.mergeSort]
  rw [keyword_step_eq "ok scan aa" actScanAA [actScan] (MemVal.str "scan_aa")
    actScanAA 8 7 [(actScan, 7)] hsort (Or.inr ⟨actScan, [], rfl⟩)]
  rfl

/-- Claim C3 (amended): for inputs reaching the keyword-scoring step (no
in-bounds ordinal), with `best` the top score and `second` the runner-up
under the stable descending sort, `resolve_followup` returns `kind=action`
with the best-scoring action and confidence 85 exactly when
`best >= 8 ∧ best >= second + 3`; in particular, for two actions with
keyword scores 8 and 7 (margin 1 < 3) and user text that is *not* an
acknowledgment, the resolution kind is `clarify`, not `action` (for an
acknowledgment text the acknowledgment step can still return an action, as
the counterexample shows). -/
theorem C3_margin_rule (text : String) (mem : List (String × MemVal))
    (a0 : FollowupAction) (rest : List FollowupAction) (dflt : MemVal)
    (best : FollowupAction) (best_score second_score : Nat)
    (tail : List (FollowupAction × Nat))
    (hload : _load_actions_from_memory mem = Except.ok (a0 :: rest, dflt))
    (hord : ∀ i, _ordinal_pick text = some i → (a0 :: rest).length ≤ i)
    (hsort : ((a0 :: rest).map
      (fun a => (a, _score_action_match text a))).mergeSort
        (fun x y => x.2 ≥ y.2) = (best, best_score) :: tail)
    (hss : tail = [] ∧ second_score = 0 ∨
      ∃ b2 tl2, tail = (b2, second_score) :: tl2) :
    ((resolve_followup text mem = Except.ok
        { kind := "action", action := some best,
          clarify_prompt := Option.none, confidence := 85,
          reason := "keyword_match score=" ++ toString best_score ++
            " margin=" ++ toString (best_score - second_score) })
      ↔ (8 ≤ best_score ∧ second_score + 3 ≤ best_score)) ∧
    (best_score = 8 → second_score = 7 → is_ack_or_continue text = false →
      ∃ p r, resolve_followup text mem = Except.ok
        { kind := "clarify", action := Option.none, clarify_prompt := some p,
          confidence := 40, reason := r }) := by
  have hres : resolve_followup text mem =
      Except.ok (_keyword_step text a0 rest dflt) := by
    cases ho : _ordinal_pick text with
    | none => simp only [resolve_followup, hload, ho]
    | some i =>
      have hge := hord i ho
      simp only [resolve_followup, hload, ho]
      rw [dif_neg (by omega)]
  have hks := keyword_step_eq text a0 rest dflt best best_score second_score
    tail hsort hss
  rw [hres, hks]
  constructor
  · by_cases hcond : (best_score ≥ 8 && best_score ≥ second_score + 3) = true
    · rw [if_pos hcond]
      simp only [Bool.and_eq_true, decide_eq_true_eq, ge_iff_le] at hcond
      exact ⟨fun _ => hcond, fun _ => rfl⟩
    · rw [if_neg hcond]
      constructor
      · intro heq
        exfalso
        split at heq
        · split at heq <;> simp at heq
        · simp at heq
      · intro hcond'
        exact absurd (by
          simp only [Bool.and_eq_true, decide_eq_true_eq, ge_iff_le]
          exact ⟨hcond'.1, hcond'.2⟩) hcond
  · intro h8 h7 hackf
    subst h8
    subst h7
    rw [if_neg (by decide)]
    rw [if_neg (show ¬ ((is_ack_or_continue text && truthy dflt) = true) by
      rw [hackf]
      simp)]
    exact ⟨_, _, rfl⟩

theorem C3_margin_rule_witness :
    _load_actions_from_memory memScan1 =
        Except.ok (actScanAA :: [], MemVal.str "scan_aa") ∧
      (∀ i, _ordinal_pick "scan aa" = some i → (actScanAA :: []).length ≤ i) ∧
      ((actScanAA :: []).map
        (fun a => (a, _score_action_match "scan aa" a))).mergeSort
          (fun x y => x.2 ≥ y.2) = (actScanAA, 8) :: [] ∧
      resolve_followup "scan aa" memScan1 = Except.ok
        { kind := "action", action := some actScanAA,
          clarify_prompt := Option.none, confidence := 85,
          reason := "keyword_match score=" ++ toString 8 ++
            " margin=" ++ toString (8 - 0) } := by
  have hsort : ((actScanAA :: []).map
      (fun a => (a, _score_action_match "scan aa" a))).mergeSort
        (fun x y => x.2 ≥ y.2) = (actScanAA, 8) :: [] := by
    rw [show (actScanAA :: []).map
      (fun a => (a, _score_action_match "scan aa" a)) =
        [(actScanAA, 8)] from rfl]
    simp [List.mergeSort]
  have hord : ∀ i, _ordinal_pick "scan aa" = some i →
      (actScanAA :: []).length ≤ i := by
    intro i hi
    rw [show _ordinal_pick "scan aa" = Option.none from rfl] at hi
    cases hi
  exact ⟨rfl, hord, hsort,
    (C3_margin_rule "scan aa" memScan1 actScanAA [] (MemVal.str "scan_aa")
      actScanAA 8 0 [] rfl hord hsort (Or.inl ⟨rfl, rfl⟩)).1.mpr
      (by decide)⟩

/-! ## Totality analysis (claim C9) -/

/-- The historical block has a numeric (or absent) `data_points`, so the
`>` comparisons cannot raise. -/
def hist_ok (historical : Option HistoricalSnap) : Bool :=
  match historical with
  | Option.none => true
  | some h =>
    match h.data_points with
    | DataPointsVal.int _ => true
    | DataPointsVal.str _ => false

/-- A `keywords` field value that the entry loop can process without a
`TypeError`: anything falsy, or an iterable (string, list, dict). -/
def kw_field_ok (v : MemVal) : Bool :=
  match v with
  | MemVal.bool b => ¬ b
  | MemVal.int n => n = 0
  | _ => true

/-- A `next_actions` entry that the loop handles without raising: non-dict
entries and incomplete dict entries are skipped before `keywords` is ever
touched; complete entries need a well-formed `keywords` field. -/
def entry_ok (a : MemVal) : Bool :=
  match a with
  | MemVal.dict kvs =>
    let aid := pyFieldStr kvs "id"
    let query := pyFieldStr kvs "query"
    if aid = "" || query = "" then true
    else kw_field_ok (pyGet kvs "keywords")
  | _ => true

/-- A memory record on which `_load_actions_from_memory` cannot raise: a
truthy non-iterable `next_actions` (bool/int) raises at the `for` loop;
a list needs every entry to be processable. -/
def memory_ok (last_context : List (String × MemVal)) : Bool :=
  match pyGet last_context "next_actions" with
  | MemVal.bool b => ¬ b
  | MemVal.int n => n = 0
  | MemVal.list xs => xs.all entry_ok
  | _ => true

theorem loadEntry_ok {a : MemVal} (h : entry_ok a = true) :
    (loadEntry a).isOk = true := by
  cases a with
  | dict kvs =>
    simp only [entry_ok] at h
    simp only [loadEntry]
    by_cases hc : (decide (pyFieldStr kvs "id" = "") ||
        decide (pyFieldStr kvs "query" = "")) = true
    · rw [if_pos hc]
      rfl
    · rw [if_neg hc]
      rw [if_neg hc] at h
      rcases hkv : pyGet kvs "keywords" with _ | b | n | s | xs | kvs2 <;>
        rw [hkv] at h
      · rfl
      · cases b with
        | true => simp [kw_field_ok] at h
        | false => rfl
      · have hn : n = 0 := by simpa [kw_field_ok] using h
        subst hn
        rfl
      · by_cases hs : s = ""
        · subst hs
          rfl
        · rw [show pyOr (MemVal.str s) (MemVal.list []) = MemVal.str s by
            simp [pyOr, truthy, hs]]
          rfl
      · cases xs with
        | nil => rfl
        | cons x xs2 => rfl
      · cases kvs2 with
        | nil => rfl
        | cons kv kvs3 => rfl
  | none => rfl
  | bool b => rfl
  | int n => rfl
  | str s => rfl
  | list xs => rfl

theorem loadEntries_ok {xs : List MemVal} (h : xs.all entry_ok = true) :
    (loadEntries xs).isOk = true := by
  induction xs with
  | nil => rfl
  | cons a rest ih =>
    simp only [List.all_cons, Bool.and_eq_true] at h
    have ha := loadEntry_ok h.1
    have hrest := ih h.2
    cases hea : loadEntry a with
    | error e => rw [hea] at ha; simp [Except.isOk, Except.toBool] at ha
    | ok xa =>
      cases hes : loadEntries rest with
      | error e => rw [hes] at hrest; simp [Except.isOk, Except.toBool] at hrest
      | ok acts =>
        cases xa with
        | none =>
          rw [show loadEntries (a :: rest) = loadEntries rest by
            simp only [loadEntries, hea], hes]
          rfl
        | some act =>
          rw [show loadEntries (a :: rest) = Except.ok (act :: acts) by
            simp only [loadEntries, hea, hes]]
          rfl

theorem loadEntries_strings {l : List MemVal}
    (h : ∀ x ∈ l, ∃ s, x = MemVal.str s) : loadEntries l = Except.ok [] := by
  induction l with
  | nil => rfl
  | cons a rest ih =>
    obtain ⟨s, rfl⟩ := h a (List.mem_cons_self _ _)
    have hrest := ih (fun x hx => h x (List.mem_cons_of_mem _ hx))
    simp only [loadEntries, loadEntry, hrest]

theorem load_ok_of_memory_ok {mem : List (String × MemVal)}
    (h : memory_ok mem = true) :
    (_load_actions_from_memory mem).isOk = true := by
  simp only [memory_ok] at h
  rcases hv : pyGet mem "next_actions" with _ | b | n | s | xs | kvs2 <;>
    rw [hv] at h
  · simp only [_load_actions_from_memory, hv]
    rfl
  · cases b with
    | true => simp at h
    | false =>
      simp only [_load_actions_from_memory, hv]
      rfl
  · have hn : n = 0 := by simpa using h
    subst hn
    simp only [_load_actions_from_memory, hv]
    rfl
  · by_cases hs : s = ""
    · subst hs
      simp only [_load_actions_from_memory, hv]
      rfl
    · have hentries : loadEntries
          (s.toList.map (fun c => MemVal.str (String.mk [c]))) =
          Except.ok [] :=
        loadEntries_strings (by
          intro x hx
          obtain ⟨c, -, rfl⟩ := List.mem_map.mp hx
          exact ⟨String.mk [c], rfl⟩)
      simp only [_load_actions_from_memory, hv,
        show pyOr (MemVal.str s) (MemVal.list []) = MemVal.str s by
          simp [pyOr, truthy, hs]]
      simp only [pyIter, hentries]
      rfl
  · cases xs with
    | nil =>
      simp only [_load_actions_from_memory, hv]
      rfl
    | cons x xs2 =>
      have hacts := loadEntries_ok h
      cases hes : loadEntries (x :: xs2) with
      | error e => rw [hes] at hacts; simp [Except.isOk, Except.toBool] at hacts
      | ok acts =>
        simp only [_load_actions_from_memory, hv, pyOr, truthy]
        simp only [pyIter]
        rw [show (if (decide ¬(x :: xs2).isEmpty) = true then
            MemVal.list (x :: xs2) else MemVal.list []) =
            MemVal.list (x :: xs2) by simp]
        simp only [pyIter, hes]
        rfl
  · cases kvs2 with
    | nil =>
      simp only [_load_actions_from_memory, hv]
      rfl
    | cons kv kvs3 =>
      have hentries : loadEntries
          ((kv :: kvs3).map (fun p => MemVal.str p.1)) = Except.ok [] :=
        loadEntries_strings (by
          intro x hx
          obtain ⟨p, -, rfl⟩ := List.mem_map.mp hx
          exact ⟨p.1, rfl⟩)
      simp only [_load_actions_from_memory, hv]
      simp only [pyOr, truthy]
      rw [show (if (decide ¬(kv :: kvs3).isEmpty) = true then
          MemVal.dict (kv :: kvs3) else MemVal.list []) =
          MemVal.dict (kv :: kvs3) by simp]
      simp only [pyIter, hentries]
      rfl

theorem C9_graceful_counterexample :
    calculate_confidence 0
      { success := true, current := Option.none, company := Option.none,
        historical := some ⟨DataPointsVal.str "thirty"⟩ } Option.none =
      Except.error "TypeError: not supported between instances of str and int" :=
  rfl

/-- Claim C9 (amended): `calculate_confidence` is total whenever the
historical `data_points` value is numeric (or the block is absent) — in
particular a present-but-unparseable timestamp degrades to +20 partial
credit instead of raising — and `resolve_followup` never raises for any
user text and any memory whose `next_actions` entries are non-records,
incomplete records, or records whose `keywords` field is falsy or iterable.
However, a non-numeric `data_points` value makes `calculate_confidence`
raise a `TypeError` (see the counterexample), so the original claim's
unrestricted totality fails. -/
theorem C9_graceful_amended :
    (∀ (now : Int) (b : StockBundle) (articles : Option (List Article)),
      hist_ok b.historical = true →
      (calculate_confidence now b articles).isOk = true) ∧
    (∀ now : Int,
      price_component now (some ⟨true, TsVal.invalid⟩) = (20, [])) ∧
    (∀ (text : String) (mem : List (String × MemVal)),
      memory_ok mem = true → (resolve_followup text mem).isOk = true) := by
  refine ⟨?_, fun now => rfl, ?_⟩
  · intro now b arts hh
    simp only [calculate_confidence]
    by_cases hs : ¬ b.success
    · rw [if_pos hs]
      rfl
    · rw [if_neg hs]
      cases hhist : historical_component b.historical with
      | error e =>
        exfalso
        simp only [hist_ok] at hh
        cases hb : b.historical with
        | none =>
          rw [hb] at hhist
          simp [historical_component] at hhist
        | some hsnap =>
          rw [hb] at hh hhist
          cases hdp : hsnap.data_points with
          | int n =>
            simp only [historical_component, hdp] at hhist
            split_ifs at hhist
          | str s =>
            simp [hdp] at hh
      | ok pr =>
        rfl
  · intro text mem hok
    have hl := load_ok_of_memory_ok hok
    cases hload : _load_actions_from_memory mem with
    | error e =>
      rw [hload] at hl
      simp [Except.isOk, Except.toBool] at hl
    | ok pr =>
      obtain ⟨actions, dflt⟩ := pr
      cases actions with
      | nil =>
        simp only [resolve_followup, hload]
        rfl
      | cons a0 rest =>
        cases ho : _ordinal_pick text with
        | none =>
          simp only [resolve_followup, hload, ho]
          rfl
        | some i =>
          by_cases hi : i < (a0 :: rest).length
          · simp only [resolve_followup, hload, ho]
            rw [dif_pos hi]
            rfl
          · simp only [resolve_followup, hload, ho]
            rw [dif_neg hi]
            rfl

/-- Memory whose `next_actions` mixes non-record entries, an incomplete
record and a complete record with a string `keywords` field. -/
def memJunk : List (String × MemVal) :=
  [("next_actions", MemVal.list
    [MemVal.int 7, MemVal.str "ab",
     MemVal.dict [("id", MemVal.str "a")],
     MemVal.dict [("id", MemVal.str "a"), ("query", MemVal.str "q"),
       ("keywords", MemVal.str "kw")]])]

theorem C9_graceful_amended_witness :
    hist_ok (some ⟨DataPointsVal.int 42⟩ : Option HistoricalSnap) = true ∧
    memory_ok memJunk = true ∧
    (calculate_confidence 0
      { success := true, current := some ⟨true, TsVal.invalid⟩,
        company := Option.none,
        historical := some ⟨DataPointsVal.int 42⟩ } Option.none).isOk = true ∧
    (resolve_followup "hm" memJunk).isOk = true :=
  ⟨rfl, rfl, C9_graceful_amended.1 0 _ Option.none rfl,
   C9_graceful_amended.2.2 "hm" memJunk rfl⟩
